import Mathlib

/-!
Verification of the hydrator repository (cloudfoundry/hydrator).

This file gives a shallow embedding of the parts of the code that the
properties below concern:

* `Downloader.Run` from `downloader/downloader.go` — the concurrent
  per-layer download loop with retries.  Concurrency is modelled by an
  oracle `outcome : Nat → Nat → Bool` giving the success of each
  `Registry.DownloadLayer` call (task index, attempt number), a
  `choice : Nat` selecting which failing task's error wins the race to
  the one-slot error channel, and a `selectsDone : Bool` resolving the
  final `select` between the error channel and the
  WaitGroup-completion channel when both are ready (which can happen
  exactly when a single task exhausted its retries and every task has
  signaled done before the main goroutine executes the `select`).
* `LayerModifier.AddLayer` / `LayerModifier.RemoveHydratorLayer` from
  `layermodifier/layermodifier.go` — written against the abstract
  `OCIDirectory` capability set, exactly as in the Go source, together
  with a trace of the directory calls made.  Go slice-index panics are
  modelled by an explicit `LMErr.outOfRange` error.
* `ImageFetcher.Run` from `imagefetcher/imagefetcher.go` — with the
  filesystem / network collaborators abstracted into a `FetchEnv`.
* The `oci-directory` Handler, whose read.go/write.go are not part of
  the sources at hand; it is modelled from the specification (§4.3) as
  a state machine `DirState` with `specOps`.

SHA-256 hashing and gzip decompression are external primitives
(crypto/sha256, go-containerregistry's tarball.LayerFromFile); they are
abstracted into a `HashModel` parameter.
-/

namespace Hydrator

/-- Decidable equality for `Except`, so that concrete runs can be
checked by `decide`. -/
def exceptDecEq {ε α : Type} [DecidableEq ε] [DecidableEq α] :
    (a b : Except ε α) → Decidable (a = b)
  | Except.error x, Except.error y =>
    if h : x = y then isTrue (by rw [h])
    else isFalse (fun hh => h (Except.error.inj hh))
  | Except.error _, Except.ok _ => isFalse (fun hh => Except.noConfusion hh)
  | Except.ok _, Except.error _ => isFalse (fun hh => Except.noConfusion hh)
  | Except.ok x, Except.ok y =>
    if h : x = y then isTrue (by rw [h])
    else isFalse (fun hh => h (Except.ok.inj hh))

instance {ε α : Type} [DecidableEq ε] [DecidableEq α] : DecidableEq (Except ε α) :=
  exceptDecEq

/-- OCI media type constant `v1.MediaTypeImageLayerGzip` from
opencontainers/image-spec, used by both the downloader and the layer
modifier for the rewritten / computed layer descriptors. -/
def mediaTypeImageLayerGzip : String := "application/vnd.oci.image.layer.v1.tar+gzip"

/-- Foreign-layer media type (recognized by the layout store). -/
def mediaTypeForeignLayerGzip : String :=
  "application/vnd.docker.image.rootfs.foreign.diff.tar.gzip"

/-- OCI descriptor (`v1.Descriptor`): the fields the code uses.
Digests are strings of the canonical form "algo:hex" (go-digest's
`digest.Digest` is a string type). -/
structure Descriptor where
  mediaType : String
  digest : String
  size : Int
deriving Repr, DecidableEq, Inhabited

/-- OCI manifest (`v1.Manifest`): config descriptor, ordered layer list
and the annotations map (Go field `Annotations`, modelled as an
association list). -/
structure Manifest where
  config : Descriptor
  layers : List Descriptor
  annots : List (String × String)
deriving Repr, DecidableEq, Inhabited

/-- The rootfs section of an OCI image config (`v1.RootFS`): the Go
field `Type` is `fsType` here, `DiffIDs` is the ordered diff-id list. -/
structure RootFS where
  fsType : String
  diffIDs : List String
deriving Repr, DecidableEq, Inhabited

/-- OCI image config (`v1.Image`): the fields the code uses. -/
structure Image where
  os : String
  architecture : String
  rootfs : RootFS
deriving Repr, DecidableEq, Inhabited

/-- Character-level analogue of Go's `strings.Split(s, sep)` for a
one-character separator (the code only ever splits on ":" and "/").
Defined on `List Char` so that it evaluates by `decide` / `rfl`. -/
def splitOnChar (c : Char) : List Char → List (List Char)
  | [] => [[]]
  | ch :: rest =>
    let r := splitOnChar c rest
    if ch = c then [] :: r
    else
      match r with
      | [] => [[ch]]
      | hd :: tl => (ch :: hd) :: tl

/-- Go's `strings.Split` on a string, for a one-character separator. -/
def goSplit (s : String) (c : Char) : List String :=
  (splitOnChar c s.toList).map String.mk

/-- The characters after the first occurrence of ':', if any. -/
def afterFirstColon : List Char → Option (List Char)
  | [] => none
  | c :: rest => if c = ':' then some rest else afterFirstColon rest

/-- Go-digest's `Digest.Encoded()`: everything after the first colon;
the whole string when there is no colon. -/
def digestEncoded (d : String) : String :=
  match afterFirstColon d.toList with
  | some rest => String.mk rest
  | none => d


/-! ## Downloader (`downloader/downloader.go`) -/

/-- The registry interface as used by `Downloader.Run`: `Manifest()` and
`Config(desc)`.  `DownloadLayer` is effectful and nondeterministic; its
outcomes are modelled separately by the `outcome` oracle passed to
`Downloader.Run`. -/
structure Registry where
  manifest : Except String Manifest
  config : Descriptor → Except String Image

/-- Error results of `Downloader.Run`.  `propagated` carries an error
returned by `Registry.Manifest` / `Registry.Config`;
`maxLayerDownloadRetries` is `MaxLayerDownloadRetriesError` with its
`DiffID` and `SHA` fields (both in `Encoded()` form). -/
inductive DownloadErr
  | propagated (msg : String)
  | invalidOS (os : String)
  | invalidArch (arch : String)
  | layerDiffIdMismatch (nLayers nDiffIds : Nat)
  | maxLayerDownloadRetries (diffID sha : String)
deriving Repr, DecidableEq

/-- One observable step of a per-layer download task: a call to
`Registry.DownloadLayer` on attempt `a`, or a sleep of `secs` seconds
(`time.Sleep(time.Duration(attempt) * time.Second)`). -/
inductive TaskEvent
  | download (a : Nat)
  | sleep (secs : Nat)
deriving Repr, DecidableEq

/-- The retry loop of one download goroutine in `Downloader.Run`
(`attempt` is the current 1-based attempt; `outcome a` tells whether the
`DownloadLayer` call on attempt `a` succeeds).  Returns the event trace
and whether the task succeeded; `false` means the task emitted
`MaxLayerDownloadRetriesError` after its 5th consecutive failure. -/
def taskLoop (outcome : Nat → Bool) : Nat → Nat → List TaskEvent × Bool
  | _, 0 => ([], false)
  | attempt, fuel + 1 =>
    if outcome attempt then ([TaskEvent.download attempt], true)
    else if 5 ≤ attempt then ([TaskEvent.download attempt], false)
    else
      let r := taskLoop outcome (attempt + 1) fuel
      (TaskEvent.download attempt :: TaskEvent.sleep attempt :: r.1, r.2)

/-- Event trace of one layer's task (the loop starts at attempt 1; the
structural fuel 5 is never exhausted, since the `5 ≤ attempt` exit of
the source fires first). -/
def taskEvents (outcome : Nat → Bool) : List TaskEvent := (taskLoop outcome 1 5).1

/-- Whether one layer's task succeeds within its 5 attempts. -/
def taskSucceeds (outcome : Nat → Bool) : Bool := (taskLoop outcome 1 5).2

/-- The attempt numbers on which the task called `DownloadLayer`. -/
def taskDownloads (outcome : Nat → Bool) : List Nat :=
  (taskEvents outcome).filterMap fun e =>
    match e with
    | TaskEvent.download a => some a
    | TaskEvent.sleep _ => none

/-- The sleep durations (in seconds) the task performed, in order. -/
def taskSleeps (outcome : Nat → Bool) : List Nat :=
  (taskEvents outcome).filterMap fun e =>
    match e with
    | TaskEvent.download _ => none
    | TaskEvent.sleep s => some s

/-- The error value a layer's task sends to the one-slot error channel
when it exhausts its retries
(`errChan <- &MaxLayerDownloadRetriesError{DiffID: diffId.Encoded(),
SHA: l.Digest.Encoded()}`); a successful task sends nothing. -/
def taskEmitted (diffId : String) (l : Descriptor) (outcome : Nat → Bool) :
    Option DownloadErr :=
  if taskSucceeds outcome then none
  else some (DownloadErr.maxLayerDownloadRetries (digestEncoded diffId)
    (digestEncoded l.digest))

/-- The post-validation phase of `Downloader.Run`: build the rewritten
layer descriptors in manifest order, spawn the per-layer tasks, and
wait on the `select` over the one-slot error channel and the
WaitGroup-completion channel.  The `select`'s outcome space:

* no task fails — only the completion channel ever becomes ready, so
  the run succeeds;
* two or more tasks exhaust retries — the first sender fills the
  one-slot channel and the next sender blocks *before* its deferred
  `wg.Done()`, so the WaitGroup never drains and the `select` can only
  take the error case: the run returns the winning sender's error
  (selected by `choice`);
* exactly one task exhausts retries — its error send happens-before its
  `wg.Done()`, so the error channel becomes ready first; but if every
  task has already signaled done by the time the main goroutine
  executes the `select`, both channels are ready and Go picks uniformly
  at random.  `selectsDone = true` models the schedule in which that
  late `select` picks the completion case, returning success despite
  the emitted error; `selectsDone = false` models every schedule in
  which the error case is taken. -/
def runAfterValidation (m : Manifest) (c : Image) (outcome : Nat → Nat → Bool)
    (choice : Nat) (selectsDone : Bool) :
    Except DownloadErr (List Descriptor × List String) × List (Nat × Nat) :=
  let totalLayers := m.layers.length
  let diffIds := c.rootfs.diffIDs
  let downloadedLayers := m.layers.map fun l =>
    { mediaType := mediaTypeImageLayerGzip, size := l.size, digest := l.digest }
  let calls := ((List.range totalLayers).map fun i =>
    (taskDownloads (outcome i)).map fun a => (i, a)).flatten
  let failing := (List.range totalLayers).filter fun i => ! taskSucceeds (outcome i)
  let result : Except DownloadErr (List Descriptor × List String) :=
    match failing with
    | [] => Except.ok (downloadedLayers, diffIds)
    | f0 :: rest =>
      let j := failing.getD (choice % failing.length) f0
      if rest.isEmpty && selectsDone then Except.ok (downloadedLayers, diffIds)
      else
        Except.error (DownloadErr.maxLayerDownloadRetries
          (digestEncoded (diffIds.getD j ""))
          (digestEncoded ((m.layers.getD j default).digest)))
  (result, calls)

/-- `Downloader.Run`.  `outcome i a` is the success of layer `i`'s
`DownloadLayer` call on attempt `a`; `choice` resolves the race between
several failing tasks for the one-slot error channel (the error
received is that of the `(choice % number-of-failing-tasks)`-th failing
task, in manifest order); `selectsDone` resolves the final `select`'s
race between the error channel and the completion channel when both
are ready (see `runAfterValidation`).  The second component is the
list of `DownloadLayer` invocations `(layer index, attempt)` performed
by the spawned tasks. -/
def Run (reg : Registry) (outcome : Nat → Nat → Bool) (choice : Nat)
    (selectsDone : Bool) :
    Except DownloadErr (List Descriptor × List String) × List (Nat × Nat) :=
  match reg.manifest with
  | Except.error e => (Except.error (DownloadErr.propagated e), [])
  | Except.ok m =>
    match reg.config m.config with
    | Except.error e => (Except.error (DownloadErr.propagated e), [])
    | Except.ok c =>
      if c.os ≠ "windows" then (Except.error (DownloadErr.invalidOS c.os), [])
      else if c.architecture ≠ "amd64" then
        (Except.error (DownloadErr.invalidArch c.architecture), [])
      else if m.layers.length ≠ c.rootfs.diffIDs.length then
        (Except.error
          (DownloadErr.layerDiffIdMismatch m.layers.length c.rootfs.diffIDs.length), [])
      else runAfterValidation m c outcome choice selectsDone


/-! ## LayerModifier (`layermodifier/layermodifier.go`) -/

/-- The `OCIDirectory` capability set that `LayerModifier` is written
against, over an abstract layout state `σ`.  Each operation may fail
(Go `error` results are strings) and otherwise yields the new state. -/
structure OCIDirectory (σ : Type) where
  AddBlob : String → Descriptor → σ → Except String σ
  RemoveTopBlob : String → σ → Except String σ
  ClearMetadata : σ → Except String σ
  ReadMetadata : σ → Except String (Manifest × Image)
  WriteMetadata : List Descriptor → List String → Bool → σ → Except String σ

/-- One call made by `LayerModifier` on its `OCIDirectory`, recorded in
order. -/
inductive DirCall
  | addBlob (path : String) (d : Descriptor)
  | readMetadata
  | clearMetadata
  | removeTopBlob (hex : String)
  | writeMetadata (layers : List Descriptor) (diffIds : List String) (layerAdded : Bool)
deriving Repr, DecidableEq

/-- Errors of the `LayerModifier` operations.  `outOfRange` models a Go
runtime panic from an out-of-bounds slice index; `dirErr` wraps an
error returned by the `OCIDirectory`. -/
inductive LMErr
  | dirErr (msg : String)
  | openErr (path : String)
  | notGzipped (path : String)
  | gzipReadErr (path : String)
  | outOfRange (what : String)
deriving Repr, DecidableEq

/-- The user-visible message of a `LayerModifier` error (for
`notGzipped` this is Go's `fmt.Errorf("invalid layer %s: not gzipped",
path)`). -/
def LMErr.message : LMErr → String
  | LMErr.dirErr msg => msg
  | LMErr.openErr path => "open " ++ path ++ ": no such file or directory"
  | LMErr.notGzipped path => "invalid layer " ++ path ++ ": not gzipped"
  | LMErr.gzipReadErr path => "invalid gzip stream: " ++ path
  | LMErr.outOfRange what => "runtime error: " ++ what

/-- The gzip magic bytes (`gzipHeader` in the source). -/
def gzipHeader : List Nat := [0x1f, 0x8b]

/-- `isGzipped` from the source: read up to 2 bytes into a zero-filled
2-byte buffer; an empty file reads 0 bytes with `io.EOF` and yields
`false`; otherwise compare the buffer with `gzipHeader`
(`bytes.Equal`). -/
def isGzipped (file : List Nat) : Bool :=
  match file with
  | [] => false
  | [b] => decide ([b, 0] = gzipHeader)
  | b1 :: b2 :: _ => decide ([b1, b2] = gzipHeader)

/-- The external hashing / decompression primitives used through
go-containerregistry's `tarball.LayerFromFile`: `sha256hex bytes` is
the lowercase hex SHA-256 of `bytes`, and `gunzip bytes` is the
decompressed content (`none` when the gzip stream is invalid). -/
structure HashModel where
  sha256hex : List Nat → String
  gunzip : List Nat → Option (List Nat)

/-- `LayerModifier.getLayerDescriptor`: open the file (`none` models an
open error), reject non-gzipped content, then compute the descriptor
(compressed digest, gzipped-layer media type, compressed size) and the
diffID (digest of the decompressed bytes), both in "sha256:hex" form as
produced by `Digest()`/`DiffID()` of `tarball.LayerFromFile`. -/
def getLayerDescriptor (hm : HashModel) (path : String) (file : Option (List Nat)) :
    Except LMErr (Descriptor × String) :=
  match file with
  | none => Except.error (LMErr.openErr path)
  | some bytes =>
    if ! isGzipped bytes then Except.error (LMErr.notGzipped path)
    else
      match hm.gunzip bytes with
      | none => Except.error (LMErr.gzipReadErr path)
      | some raw =>
        Except.ok
          ({ digest := "sha256:" ++ hm.sha256hex bytes,
             mediaType := mediaTypeImageLayerGzip,
             size := (bytes.length : Int) },
           "sha256:" ++ hm.sha256hex raw)

/-- `LayerModifier.AddLayer`: compute the descriptor and diffID, then
`AddBlob`, `ReadMetadata`, `ClearMetadata`, and `WriteMetadata` with the
layer and diffID appended and `layerAdded = true`.  Returns the result
together with the ordered trace of `OCIDirectory` calls. -/
def AddLayer (ops : OCIDirectory σ) (hm : HashModel) (path : String)
    (file : Option (List Nat)) (s : σ) : Except LMErr σ × List DirCall :=
  match getLayerDescriptor hm path file with
  | Except.error e => (Except.error e, [])
  | Except.ok (descriptor, diffId) =>
    match ops.AddBlob path descriptor s with
    | Except.error e => (Except.error (LMErr.dirErr e), [DirCall.addBlob path descriptor])
    | Except.ok s1 =>
      match ops.ReadMetadata s1 with
      | Except.error e =>
        (Except.error (LMErr.dirErr e),
         [DirCall.addBlob path descriptor, DirCall.readMetadata])
      | Except.ok (manifest, config) =>
        match ops.ClearMetadata s1 with
        | Except.error e =>
          (Except.error (LMErr.dirErr e),
           [DirCall.addBlob path descriptor, DirCall.readMetadata, DirCall.clearMetadata])
        | Except.ok s2 =>
          let newLayers := manifest.layers ++ [descriptor]
          let newDiffIDs := config.rootfs.diffIDs ++ [diffId]
          match ops.WriteMetadata newLayers newDiffIDs true s2 with
          | Except.error e =>
            (Except.error (LMErr.dirErr e),
             [DirCall.addBlob path descriptor, DirCall.readMetadata, DirCall.clearMetadata,
              DirCall.writeMetadata newLayers newDiffIDs true])
          | Except.ok s3 =>
            (Except.ok s3,
             [DirCall.addBlob path descriptor, DirCall.readMetadata, DirCall.clearMetadata,
              DirCall.writeMetadata newLayers newDiffIDs true])

/-- `LayerModifier.RemoveHydratorLayer`: read the metadata; if the
"hydrator.layerAdded" annotation is absent return success with no
further calls; otherwise clear the metadata, take the last layer
(Go `manifest.Layers[len(manifest.Layers)-1]`, a panic when the layer
list is empty), split its digest on ":" and take index 1 (a panic when
the digest has no colon), remove that blob, and write back the metadata
with the last layer and last diffID dropped
(`config.RootFS.DiffIDs[:len-1]` panics when the diffID list is empty)
and `layerAdded = false`. -/
def RemoveHydratorLayer (ops : OCIDirectory σ) (s : σ) :
    Except LMErr σ × List DirCall :=
  match ops.ReadMetadata s with
  | Except.error e => (Except.error (LMErr.dirErr e), [DirCall.readMetadata])
  | Except.ok (manifest, config) =>
    match manifest.annots.lookup "hydrator.layerAdded" with
    | none => (Except.ok s, [DirCall.readMetadata])
    | some _ =>
      match ops.ClearMetadata s with
      | Except.error e =>
        (Except.error (LMErr.dirErr e), [DirCall.readMetadata, DirCall.clearMetadata])
      | Except.ok s1 =>
        match manifest.layers.getLast? with
        | none =>
          (Except.error (LMErr.outOfRange "index out of range: manifest.Layers"),
           [DirCall.readMetadata, DirCall.clearMetadata])
        | some lastLayer =>
          match (goSplit lastLayer.digest ':').get? 1 with
          | none =>
            (Except.error (LMErr.outOfRange "index out of range: digest split"),
             [DirCall.readMetadata, DirCall.clearMetadata])
          | some layerDigest =>
            match ops.RemoveTopBlob layerDigest s1 with
            | Except.error e =>
              (Except.error (LMErr.dirErr e),
               [DirCall.readMetadata, DirCall.clearMetadata,
                DirCall.removeTopBlob layerDigest])
            | Except.ok s2 =>
              if config.rootfs.diffIDs.isEmpty then
                (Except.error (LMErr.outOfRange "slice bounds out of range: DiffIDs"),
                 [DirCall.readMetadata, DirCall.clearMetadata,
                  DirCall.removeTopBlob layerDigest])
              else
                let newLayers := manifest.layers.dropLast
                let newDiffIDs := config.rootfs.diffIDs.dropLast
                match ops.WriteMetadata newLayers newDiffIDs false s2 with
                | Except.error e =>
                  (Except.error (LMErr.dirErr e),
                   [DirCall.readMetadata, DirCall.clearMetadata,
                    DirCall.removeTopBlob layerDigest,
                    DirCall.writeMetadata newLayers newDiffIDs false])
                | Except.ok s3 =>
                  (Except.ok s3,
                   [DirCall.readMetadata, DirCall.clearMetadata,
                    DirCall.removeTopBlob layerDigest,
                    DirCall.writeMetadata newLayers newDiffIDs false])


/-! ## The oci-directory Handler, modelled from the spec

The repository's `oci-directory` read.go / write.go are not among the
sources at hand (only their tests and callers are), so the filesystem
Handler behind the `OCIDirectory` capability set is modelled from the
specification, §4.3. -/

/-- Lowercase-hex character test, used by the digest lexical check. -/
def isHexChar (c : Char) : Bool :=
  (48 ≤ c.toNat && c.toNat ≤ 57) || (97 ≤ c.toNat && c.toNat ≤ 102)

/-- Modelled from the spec: digest lexical validation (§3) — canonical
form "algo:hex" where only sha256 is accepted, with a nonempty
lowercase-hex encoded part. -/
def validDigestFormat (d : String) : Bool :=
  match splitOnChar ':' d.toList with
  | [algo, hex] => algo = "sha256".toList && !hex.isEmpty && hex.all isHexChar
  | _ => false

/-- Modelled from the spec: the layer media types recognized by the
layout store (§6) — the OCI gzipped layer type written by this system
and the Docker gzipped / foreign-gzipped types. -/
def recognizedLayerType (mt : String) : Bool :=
  mt = mediaTypeImageLayerGzip ||
  mt = "application/vnd.docker.image.rootfs.diff.tar.gzip" ||
  mt = mediaTypeForeignLayerGzip

/-- Modelled from the spec: the state of an OCI image layout directory
(§4.3).  `blobs` is the set of layer blob files under `blobs/sha256/`
keyed by hex digest (content-addressing makes the key determine the
content); the metadata files (`index.json`, the manifest and config
blobs, `oci-layout`) are abstracted into the parsed `manifest` and
`config` plus the `hasMetadata` flag that `ClearMetadata` clears and
`WriteMetadata` sets. -/
structure DirState where
  blobsDirExists : Bool
  hasMetadata : Bool
  manifest : Manifest
  config : Image
  blobs : List String
deriving Repr, DecidableEq, Inhabited

/-- Modelled from the spec: the validations `ReadMetadata` performs
(§4.3) — metadata present, platform `windows`/`amd64`, rootfs type
"layers", every layer descriptor of a recognized layer type with a
lexically valid digest whose blob file is present and verified, and
matching layer / diff-id counts. -/
def wellFormed (s : DirState) : Bool :=
  s.blobsDirExists && s.hasMetadata &&
  s.config.os = "windows" && s.config.architecture = "amd64" &&
  s.config.rootfs.fsType = "layers" &&
  (s.manifest.layers.all fun l =>
    recognizedLayerType l.mediaType && validDigestFormat l.digest &&
    s.blobs.contains (digestEncoded l.digest)) &&
  s.manifest.layers.length = s.config.rootfs.diffIDs.length

/-- Modelled from the spec: the filesystem-backed `OCIDirectory`
Handler (§4.3), whose read.go/write.go are absent from the sources.
`cdf diffIds` stands for the config descriptor that `WriteMetadata`
synthesizes (its digest is the SHA-256 of the marshalled config, which
is a function of the diff-ids). -/
def specOps (cdf : List String → Descriptor) : OCIDirectory DirState where
  AddBlob := fun _path d s =>
    if ! s.blobsDirExists then Except.error "invalid OCI layout: blobs/sha256 missing"
    else if ! validDigestFormat d.digest then Except.error "invalid digest format"
    else Except.ok { s with blobs := s.blobs.insert (digestEncoded d.digest) }
  RemoveTopBlob := fun hex s =>
    if ! s.blobsDirExists then Except.error "invalid OCI layout: blobs/sha256 missing"
    else if s.blobs.contains hex then Except.ok { s with blobs := s.blobs.erase hex }
    else Except.error "missing layer"
  ClearMetadata := fun s =>
    if s.hasMetadata then Except.ok { s with hasMetadata := false }
    else Except.error "couldn't load index.json"
  ReadMetadata := fun s =>
    if wellFormed s then Except.ok (s.manifest, s.config)
    else Except.error "invalid OCI image"
  WriteMetadata := fun layers diffIds layerAdded s =>
    if layers.length ≠ diffIds.length then Except.error "layer and diffID count mismatch"
    else Except.ok
      { s with
        hasMetadata := true,
        manifest :=
          { config := cdf diffIds, layers := layers,
            annots := if layerAdded then [("hydrator.layerAdded", "true")] else [] },
        config :=
          { os := "windows", architecture := "amd64",
            rootfs := { fsType := "layers", diffIDs := diffIds } } }

/-! ## ImageFetcher (`imagefetcher/imagefetcher.go`) -/

/-- The effectful collaborators of `ImageFetcher.Run`, abstracted:
directory creation, temp-dir allocation, the downloader run, metadata
writing, and tarball packaging (`compress.WriteTgz srcDir outFile`). -/
structure FetchEnv where
  mkdirOutOk : Bool
  tempDir : Except String String
  mkdirBlobOk : Bool
  downloadResult : Except String (List Descriptor × List String)
  writeMetadata : List Descriptor → List String → Bool → Except String Unit
  writeTgz : String → String → Except String Unit

/-- The distinct error exits of `ImageFetcher.Run` (each carries the
collaborator's message where the Go code wraps or propagates one).
`invalidImageName` is Go's `errors.New("Invalid image name")`. -/
inductive FetchErr
  | mkdirOut
  | tempDirErr (msg : String)
  | mkdirBlob (msg : String)
  | downloadFailed (msg : String)
  | writeMetadataErr (msg : String)
  | invalidImageName
  | writeTgzErr (msg : String)
deriving Repr, DecidableEq

/-- `filepath.Join` of a directory and a file name (the separator is
platform-dependent in Go; the claims only concern the name part). -/
def joinPath (a b : String) : String := a ++ "/" ++ b

/-- `ImageFetcher.Run`: create `outDir`; pick the download dir (`outDir`
itself under `noTarball`, a fresh temp dir otherwise); create
`blobs/sha256`; run the downloader; write the metadata with
`layerAdded = false`; and, unless `noTarball`, split the image name on
"/" (requiring exactly two parts, else "Invalid image name") and
package the download dir into `outDir/{nameParts[1]}-{tag}.tgz`.
Returns the path of the tarball written, if any. -/
def ImageFetcherRun (env : FetchEnv) (outDir imageName imageTag : String)
    (noTarball : Bool) : Except FetchErr (Option String) :=
  if ! env.mkdirOutOk then Except.error FetchErr.mkdirOut
  else
    match (if noTarball then Except.ok outDir else env.tempDir) with
    | Except.error e => Except.error (FetchErr.tempDirErr e)
    | Except.ok imageDownloadDir =>
      if ! env.mkdirBlobOk then Except.error (FetchErr.mkdirBlob "mkdir failed")
      else
        match env.downloadResult with
        | Except.error e => Except.error (FetchErr.downloadFailed e)
        | Except.ok (layers, diffIds) =>
          match env.writeMetadata layers diffIds false with
          | Except.error e => Except.error (FetchErr.writeMetadataErr e)
          | Except.ok _ =>
            if ! noTarball then
              let nameParts := goSplit imageName '/'
              if nameParts.length ≠ 2 then Except.error FetchErr.invalidImageName
              else
                let outFile :=
                  joinPath outDir (nameParts.getD 1 "" ++ "-" ++ imageTag ++ ".tgz")
                match env.writeTgz imageDownloadDir outFile with
                | Except.error e => Except.error (FetchErr.writeTgzErr e)
                | Except.ok _ => Except.ok (some outFile)
            else Except.ok none

/-! ## Concrete fixtures used by the witnesses -/

/-- A config descriptor, as found in a manifest. -/
def cfgDescEx : Descriptor :=
  { mediaType := "application/vnd.oci.image.config.v1+json",
    digest := "sha256:cc12", size := 100 }

/-- A docker-gzipped layer descriptor. -/
def descEx : Descriptor :=
  { mediaType := "application/vnd.docker.image.rootfs.diff.tar.gzip",
    digest := "sha256:ab12", size := 4 }

/-- A one-layer manifest. -/
def mEx : Manifest := { config := cfgDescEx, layers := [descEx], annots := [] }

/-- A windows/amd64 image config with one diff-id. -/
def cEx : Image :=
  { os := "windows", architecture := "amd64",
    rootfs := { fsType := "layers", diffIDs := ["sha256:dd34"] } }

/-- A registry serving `mEx` / `cEx`. -/
def regEx : Registry := { manifest := Except.ok mEx, config := fun _ => Except.ok cEx }

/-- A registry whose config has a non-windows OS. -/
def regBadOs : Registry :=
  { manifest := Except.ok mEx,
    config := fun _ => Except.ok { cEx with os := "linux" } }

/-- A registry whose config has a non-amd64 architecture. -/
def regBadArch : Registry :=
  { manifest := Except.ok mEx,
    config := fun _ => Except.ok { cEx with architecture := "arm64" } }

/-- A registry whose config has two diff-ids against a one-layer
manifest. -/
def regBadLen : Registry :=
  { manifest := Except.ok mEx,
    config := fun _ => Except.ok
      { cEx with rootfs := { fsType := "layers", diffIDs := ["sha256:dd34", "sha256:ee56"] } } }

/-- A hash model for concrete runs: the single test layer file
`[0x1f, 0x8b]` hashes to "aa11", its decompressed content `[7]` hashes
to "bb22". -/
def hmEx : HashModel :=
  { sha256hex := fun bytes => if bytes = [0x1f, 0x8b] then "aa11" else "bb22",
    gunzip := fun _ => some [7] }

/-- A config-descriptor synthesizer for the spec-modelled store. -/
def cdfEx : List String → Descriptor := fun _ => cfgDescEx

/-- A valid zero-layer layout state without the hydrator annotation. -/
def dirStateEx : DirState :=
  { blobsDirExists := true, hasMetadata := true,
    manifest := { config := cfgDescEx, layers := [], annots := [] },
    config := { os := "windows", architecture := "amd64",
                rootfs := { fsType := "layers", diffIDs := [] } },
    blobs := [] }

/-- A fetch environment whose collaborators all succeed. -/
def fetchEnvEx : FetchEnv :=
  { mkdirOutOk := true, tempDir := Except.ok "/tmp/hydrate-1", mkdirBlobOk := true,
    downloadResult := Except.ok ([descEx], ["sha256:dd34"]),
    writeMetadata := fun _ _ _ => Except.ok (),
    writeTgz := fun _ _ => Except.ok () }

/-- The descriptor `AddLayer` computes for the file `[0x1f, 0x8b]`
under `hmEx`. -/
def dEx : Descriptor :=
  { mediaType := mediaTypeImageLayerGzip, digest := "sha256:aa11", size := 2 }

/-- The layout after one `AddLayer` of `[0x1f, 0x8b]` on `dirStateEx`. -/
def exS1 : DirState :=
  { blobsDirExists := true, hasMetadata := true,
    manifest := { config := cfgDescEx, layers := [dEx],
                  annots := [("hydrator.layerAdded", "true")] },
    config := { os := "windows", architecture := "amd64",
                rootfs := { fsType := "layers", diffIDs := ["sha256:bb22"] } },
    blobs := ["aa11"] }

/-- The layout after a second `AddLayer` of the same file on `exS1`. -/
def exS2 : DirState :=
  { blobsDirExists := true, hasMetadata := true,
    manifest := { config := cfgDescEx, layers := [dEx, dEx],
                  annots := [("hydrator.layerAdded", "true")] },
    config := { os := "windows", architecture := "amd64",
                rootfs := { fsType := "layers",
                            diffIDs := ["sha256:bb22", "sha256:bb22"] } },
    blobs := ["aa11"] }

/-- The layout after `RemoveHydratorLayer` on `exS2`. -/
def exS3 : DirState :=
  { blobsDirExists := true, hasMetadata := true,
    manifest := { config := cfgDescEx, layers := [dEx], annots := [] },
    config := { os := "windows", architecture := "amd64",
                rootfs := { fsType := "layers", diffIDs := ["sha256:bb22"] } },
    blobs := [] }

/-- A valid layout whose manifest carries the hydrator annotation but
has an empty layer list. -/
def dirStateAnnotEmpty : DirState :=
  { blobsDirExists := true, hasMetadata := true,
    manifest := { config := cfgDescEx, layers := [],
                  annots := [("hydrator.layerAdded", "true")] },
    config := { os := "windows", architecture := "amd64",
                rootfs := { fsType := "layers", diffIDs := [] } },
    blobs := [] }

/-- A valid one-layer layout carrying the hydrator annotation. -/
def dirStateOneLayer : DirState :=
  { blobsDirExists := true, hasMetadata := true,
    manifest := { config := cfgDescEx, layers := [descEx],
                  annots := [("hydrator.layerAdded", "true")] },
    config := { os := "windows", architecture := "amd64",
                rootfs := { fsType := "layers", diffIDs := ["sha256:dd34"] } },
    blobs := ["ab12"] }

/-! ## Helper lemmas about the download task loop -/

/-- The attempt numbers of the `DownloadLayer` calls a task makes are a
prefix of 1..5, and a sleep of `a` seconds follows every non-final
attempt `a`. -/
lemma taskSleeps_eq_dropLast (outcome : Nat → Bool) :
    taskSleeps outcome = (taskDownloads outcome).dropLast := by
  cases h1 : outcome 1 <;> cases h2 : outcome 2 <;> cases h3 : outcome 3 <;>
    cases h4 : outcome 4 <;> cases h5 : outcome 5 <;>
      simp [taskSleeps, taskDownloads, taskEvents, taskLoop, h1, h2, h3, h4, h5]

/-- A task calls `DownloadLayer` at most 5 times. -/
lemma taskDownloads_length_le (outcome : Nat → Bool) :
    (taskDownloads outcome).length ≤ 5 := by
  cases h1 : outcome 1 <;> cases h2 : outcome 2 <;> cases h3 : outcome 3 <;>
    cases h4 : outcome 4 <;> cases h5 : outcome 5 <;>
      simp [taskDownloads, taskEvents, taskLoop, h1, h2, h3, h4, h5]

/-- A task succeeds exactly when one of its first 5 attempts succeeds. -/
lemma taskSucceeds_iff_or (outcome : Nat → Bool) :
    taskSucceeds outcome =
      (outcome 1 || outcome 2 || outcome 3 || outcome 4 || outcome 5) := by
  cases h1 : outcome 1 <;> cases h2 : outcome 2 <;> cases h3 : outcome 3 <;>
    cases h4 : outcome 4 <;> cases h5 : outcome 5 <;>
      simp [taskSucceeds, taskLoop, h1, h2, h3, h4, h5]

/-- Existential form of `taskSucceeds_iff_or`. -/
lemma taskSucceeds_iff_exists (outcome : Nat → Bool) :
    taskSucceeds outcome = true ↔ ∃ a, 1 ≤ a ∧ a ≤ 5 ∧ outcome a = true := by
  rw [taskSucceeds_iff_or]
  constructor
  · intro h
    simp only [Bool.or_eq_true] at h
    rcases h with ((((h | h) | h) | h) | h)
    · exact ⟨1, by omega, by omega, h⟩
    · exact ⟨2, by omega, by omega, h⟩
    · exact ⟨3, by omega, by omega, h⟩
    · exact ⟨4, by omega, by omega, h⟩
    · exact ⟨5, by omega, by omega, h⟩
  · rintro ⟨a, ha1, ha5, ha⟩
    interval_cases a <;> simp [ha]

/-- On five consecutive failures, the task's trace is exactly attempts
1..5 with sleeps of 1, 2, 3, 4 seconds in between, and the task fails. -/
lemma taskEvents_allfail (outcome : Nat → Bool)
    (h : ∀ a, 1 ≤ a → a ≤ 5 → outcome a = false) :
    taskEvents outcome =
      [TaskEvent.download 1, TaskEvent.sleep 1, TaskEvent.download 2, TaskEvent.sleep 2,
       TaskEvent.download 3, TaskEvent.sleep 3, TaskEvent.download 4, TaskEvent.sleep 4,
       TaskEvent.download 5] ∧
    taskSucceeds outcome = false := by
  have h1 := h 1 (by omega) (by omega)
  have h2 := h 2 (by omega) (by omega)
  have h3 := h 3 (by omega) (by omega)
  have h4 := h 4 (by omega) (by omega)
  have h5 := h 5 (by omega) (by omega)
  constructor <;> simp [taskEvents, taskSucceeds, taskLoop, h1, h2, h3, h4, h5]

/-- When the manifest and config fetches succeed and all four
validations pass, `Run` proceeds to the download phase. -/
lemma Run_eq_afterValidation (reg : Registry) (m : Manifest) (c : Image)
    (outcome : Nat → Nat → Bool) (choice : Nat) (selectsDone : Bool)
    (hm : reg.manifest = Except.ok m) (hc : reg.config m.config = Except.ok c)
    (hos : c.os = "windows") (harch : c.architecture = "amd64")
    (hlen : m.layers.length = c.rootfs.diffIDs.length) :
    Run reg outcome choice selectsDone =
      runAfterValidation m c outcome choice selectsDone := by
  simp only [Run, hm, hc]
  rw [if_neg (by simp [hos]), if_neg (by simp [harch]), if_neg (by simp [hlen])]

/-! ## Claim theorems -/

/-- C5: whenever `Downloader.Run` succeeds, the returned layer list is
exactly `manifest.layers` in order with each descriptor's media type
forced to the canonical gzipped-layer type and digest and size copied
unchanged, and the returned diff-id list is exactly
`config.rootfs.diff_ids` in original order — for every task
interleaving (`outcome`) and channel schedule (`choice`,
`selectsDone`), since the successful value is built before the tasks
spawn and is a function of the manifest and config alone. -/
theorem run_returns_manifest_order (reg : Registry) (m : Manifest) (c : Image)
    (outcome : Nat → Nat → Bool) (choice : Nat) (selectsDone : Bool)
    (ls : List Descriptor) (ds : List String)
    (hm : reg.manifest = Except.ok m) (hc : reg.config m.config = Except.ok c)
    (hrun : (Run reg outcome choice selectsDone).1 = Except.ok (ls, ds)) :
    ls = m.layers.map (fun l =>
      { mediaType := mediaTypeImageLayerGzip, digest := l.digest, size := l.size }) ∧
    ds = c.rootfs.diffIDs := by
  simp only [Run, hm, hc] at hrun
  split at hrun
  · simp at hrun
  split at hrun
  · simp at hrun
  split at hrun
  · simp at hrun
  simp only [runAfterValidation] at hrun
  split at hrun
  · simp only [Except.ok.injEq, Prod.mk.injEq] at hrun
    exact ⟨hrun.1.symm, hrun.2.symm⟩
  · split at hrun
    · simp only [Except.ok.injEq, Prod.mk.injEq] at hrun
      exact ⟨hrun.1.symm, hrun.2.symm⟩
    · simp at hrun

/-- C5 witness: a concrete successful run returns the rewritten
one-layer list and the config's diff-ids. -/
theorem run_returns_manifest_order_witness :
    ([{ mediaType := mediaTypeImageLayerGzip, digest := descEx.digest,
        size := descEx.size }] : List Descriptor) =
      mEx.layers.map (fun l =>
        { mediaType := mediaTypeImageLayerGzip, digest := l.digest, size := l.size }) ∧
    ["sha256:dd34"] = cEx.rootfs.diffIDs :=
  run_returns_manifest_order regEx mEx cEx (fun _ _ => true) 0 false
    [{ mediaType := mediaTypeImageLayerGzip, digest := descEx.digest, size := descEx.size }]
    ["sha256:dd34"] rfl rfl (by decide)

/-- C6: `Downloader.Run` returns `InvalidOS` when the config's OS is
not "windows", `InvalidArch` when its architecture is not "amd64" (and
the OS is "windows"), and `LayerDiffIDMismatch` when the layer and
diff-id counts differ (and OS/arch are valid) — in each case with an
empty `DownloadLayer` call list, i.e. before any download. -/
theorem run_validation_errors (reg : Registry) (m : Manifest) (c : Image)
    (outcome : Nat → Nat → Bool) (choice : Nat) (selectsDone : Bool)
    (hm : reg.manifest = Except.ok m) (hc : reg.config m.config = Except.ok c) :
    (c.os ≠ "windows" →
      Run reg outcome choice selectsDone =
        (Except.error (DownloadErr.invalidOS c.os), [])) ∧
    (c.os = "windows" → c.architecture ≠ "amd64" →
      Run reg outcome choice selectsDone =
        (Except.error (DownloadErr.invalidArch c.architecture), [])) ∧
    (c.os = "windows" → c.architecture = "amd64" →
      m.layers.length ≠ c.rootfs.diffIDs.length →
      Run reg outcome choice selectsDone =
        (Except.error
          (DownloadErr.layerDiffIdMismatch m.layers.length c.rootfs.diffIDs.length), [])) := by
  refine ⟨fun hos => ?_, fun hos harch => ?_, fun hos harch hlen => ?_⟩
  · simp only [Run, hm, hc]
    rw [if_pos hos]
  · simp only [Run, hm, hc]
    rw [if_neg (by simp [hos]), if_pos harch]
  · simp only [Run, hm, hc]
    rw [if_neg (by simp [hos]), if_neg (by simp [harch]), if_pos hlen]

/-- C6 witness: the three validation errors on concrete registries,
each with zero download calls. -/
theorem run_validation_errors_witness :
    Run regBadOs (fun _ _ => true) 0 false =
      (Except.error (DownloadErr.invalidOS "linux"), []) ∧
    Run regBadArch (fun _ _ => true) 0 false =
      (Except.error (DownloadErr.invalidArch "arm64"), []) ∧
    Run regBadLen (fun _ _ => true) 0 false =
      (Except.error (DownloadErr.layerDiffIdMismatch 1 2), []) :=
  ⟨(run_validation_errors regBadOs mEx { cEx with os := "linux" }
      (fun _ _ => true) 0 false rfl rfl).1 (by decide),
   (run_validation_errors regBadArch mEx { cEx with architecture := "arm64" }
      (fun _ _ => true) 0 false rfl rfl).2.1 (by decide) (by decide),
   (run_validation_errors regBadLen mEx
      { cEx with rootfs := { fsType := "layers", diffIDs := ["sha256:dd34", "sha256:ee56"] } }
      (fun _ _ => true) 0 false rfl rfl).2.2 (by decide) (by decide) (by decide)⟩

/-- C1 (code bug): the claim — and spec §7's "No silent recovery, no
partial-success exit" — requires that `Run` never return success when a
layer's task has exhausted its retries, but the code admits it.  On a
one-layer manifest whose five `DownloadLayer` attempts all fail, the
task emits `MaxLayerDownloadRetries` (`taskSucceeds` is `false`), yet
in the schedule where every task has signaled done before the main
goroutine executes the `select` and the uniform random selection takes
the completion case (`selectsDone = true`), `Run` returns success with
a descriptor for a layer that was never downloaded; the schedules in
which the error case is taken (`selectsDone = false`) return the
emitted error. -/
theorem run_select_race_partial_success :
    taskSucceeds ((fun _ _ => false) 0) = false ∧
    (Run regEx (fun _ _ => false) 0 true).1 =
      Except.ok
        ([{ mediaType := mediaTypeImageLayerGzip, digest := descEx.digest,
            size := descEx.size }], ["sha256:dd34"]) ∧
    (Run regEx (fun _ _ => false) 0 false).1 =
      Except.error (DownloadErr.maxLayerDownloadRetries
        (digestEncoded "sha256:dd34") (digestEncoded descEx.digest)) := by
  decide

/-- C4: each layer's task calls `DownloadLayer` at most 5 times with a
sleep of `attempt` seconds after each non-final attempt; on five
consecutive failures its trace is attempts 1..5 interleaved with sleeps
of 1, 2, 3, 4 seconds, the task fails and sends
`MaxLayerDownloadRetries` carrying that layer's diffID and digest hex
to the one-slot error channel, while a success among the first 5
attempts makes the task succeed with nothing emitted.  At the `Run`
level (one-layer manifest), the `DownloadLayer` calls performed are
exactly the task's attempts, and a successful task makes `Run` succeed
— in every channel schedule. -/
theorem run_retry_semantics (outcome1 : Nat → Bool) (diffId1 : String)
    (l1 : Descriptor) (reg : Registry) (m : Manifest) (c : Image) (l : Descriptor)
    (di : String) (outcome : Nat → Nat → Bool) (choice : Nat) (selectsDone : Bool)
    (hm : reg.manifest = Except.ok m) (hc : reg.config m.config = Except.ok c)
    (hos : c.os = "windows") (harch : c.architecture = "amd64")
    (hl : m.layers = [l]) (hd : c.rootfs.diffIDs = [di]) :
    (taskDownloads outcome1).length ≤ 5 ∧
    taskSleeps outcome1 = (taskDownloads outcome1).dropLast ∧
    ((∀ a, 1 ≤ a → a ≤ 5 → outcome1 a = false) →
      taskEvents outcome1 =
        [TaskEvent.download 1, TaskEvent.sleep 1, TaskEvent.download 2, TaskEvent.sleep 2,
         TaskEvent.download 3, TaskEvent.sleep 3, TaskEvent.download 4, TaskEvent.sleep 4,
         TaskEvent.download 5] ∧
      taskSucceeds outcome1 = false ∧
      taskEmitted diffId1 l1 outcome1 =
        some (DownloadErr.maxLayerDownloadRetries (digestEncoded diffId1)
          (digestEncoded l1.digest))) ∧
    ((∃ a, 1 ≤ a ∧ a ≤ 5 ∧ outcome1 a = true) →
      taskSucceeds outcome1 = true ∧ taskEmitted diffId1 l1 outcome1 = none) ∧
    (Run reg outcome choice selectsDone).2 =
      (taskDownloads (outcome 0)).map (fun a => (0, a)) ∧
    (taskSucceeds (outcome 0) = true →
      (Run reg outcome choice selectsDone).1 =
        Except.ok ([{ mediaType := mediaTypeImageLayerGzip, digest := l.digest,
                      size := l.size }], [di])) := by
  have hlen : m.layers.length = c.rootfs.diffIDs.length := by simp [hl, hd]
  have hRun :=
    Run_eq_afterValidation reg m c outcome choice selectsDone hm hc hos harch hlen
  have hr01 : List.range 1 = [0] := by decide
  refine ⟨taskDownloads_length_le outcome1, taskSleeps_eq_dropLast outcome1,
    fun hfail => ?_, fun hsucc => ?_, ?_, fun hts => ?_⟩
  · obtain ⟨htr, hts⟩ := taskEvents_allfail outcome1 hfail
    exact ⟨htr, hts, by simp [taskEmitted, hts]⟩
  · have hts := (taskSucceeds_iff_exists outcome1).mpr hsucc
    exact ⟨hts, by simp [taskEmitted, hts]⟩
  · rw [hRun]
    simp only [runAfterValidation, hl, hd]
    simp [hr01]
  · rw [hRun]
    simp only [runAfterValidation, hl, hd]
    simp [hts, hr01]

/-- C4 witness: the retry semantics at an all-failing and an
eventually-succeeding outcome on the concrete one-layer registry. -/
theorem run_retry_semantics_witness :
    (taskDownloads (fun _ => false)).length ≤ 5 ∧
    taskSleeps (fun _ => false) = (taskDownloads (fun _ => false)).dropLast ∧
    taskEvents (fun _ => false) =
      [TaskEvent.download 1, TaskEvent.sleep 1, TaskEvent.download 2, TaskEvent.sleep 2,
       TaskEvent.download 3, TaskEvent.sleep 3, TaskEvent.download 4, TaskEvent.sleep 4,
       TaskEvent.download 5] ∧
    taskSucceeds (fun _ => false) = false ∧
    taskEmitted "sha256:dd34" descEx (fun _ => false) =
      some (DownloadErr.maxLayerDownloadRetries (digestEncoded "sha256:dd34")
        (digestEncoded descEx.digest)) ∧
    taskSucceeds (fun a => a = 3) = true ∧
    taskEmitted "sha256:dd34" descEx (fun a => a = 3) = none ∧
    (Run regEx (fun _ _ => false) 0 false).2 =
      (taskDownloads ((fun _ _ => false) 0)).map (fun a => (0, a)) ∧
    (Run regEx (fun _ a => a = 3) 0 false).1 =
      Except.ok ([{ mediaType := mediaTypeImageLayerGzip, digest := descEx.digest,
                    size := descEx.size }], ["sha256:dd34"]) :=
  ⟨(run_retry_semantics (fun _ => false) "sha256:dd34" descEx regEx mEx cEx descEx
      "sha256:dd34" (fun _ _ => false) 0 false rfl rfl rfl rfl rfl rfl).1,
   (run_retry_semantics (fun _ => false) "sha256:dd34" descEx regEx mEx cEx descEx
      "sha256:dd34" (fun _ _ => false) 0 false rfl rfl rfl rfl rfl rfl).2.1,
   ((run_retry_semantics (fun _ => false) "sha256:dd34" descEx regEx mEx cEx descEx
      "sha256:dd34" (fun _ _ => false) 0 false rfl rfl rfl rfl rfl rfl).2.2.1
      (fun _ _ _ => rfl)).1,
   ((run_retry_semantics (fun _ => false) "sha256:dd34" descEx regEx mEx cEx descEx
      "sha256:dd34" (fun _ _ => false) 0 false rfl rfl rfl rfl rfl rfl).2.2.1
      (fun _ _ _ => rfl)).2.1,
   ((run_retry_semantics (fun _ => false) "sha256:dd34" descEx regEx mEx cEx descEx
      "sha256:dd34" (fun _ _ => false) 0 false rfl rfl rfl rfl rfl rfl).2.2.1
      (fun _ _ _ => rfl)).2.2,
   ((run_retry_semantics (fun a => a = 3) "sha256:dd34" descEx regEx mEx cEx descEx
      "sha256:dd34" (fun _ a => a = 3) 0 false rfl rfl rfl rfl rfl rfl).2.2.2.1
      ⟨3, by decide, by decide, by decide⟩).1,
   ((run_retry_semantics (fun a => a = 3) "sha256:dd34" descEx regEx mEx cEx descEx
      "sha256:dd34" (fun _ a => a = 3) 0 false rfl rfl rfl rfl rfl rfl).2.2.2.1
      ⟨3, by decide, by decide, by decide⟩).2,
   (run_retry_semantics (fun _ => false) "sha256:dd34" descEx regEx mEx cEx descEx
      "sha256:dd34" (fun _ _ => false) 0 false rfl rfl rfl rfl rfl rfl).2.2.2.2.1,
   (run_retry_semantics (fun a => a = 3) "sha256:dd34" descEx regEx mEx cEx descEx
      "sha256:dd34" (fun _ a => a = 3) 0 false rfl rfl rfl rfl rfl rfl).2.2.2.2.2
      (by decide)⟩
/-- A file's first two bytes are the gzip magic exactly when `isGzipped`
accepts it. -/
lemma isGzipped_iff (bytes : List Nat) :
    isGzipped bytes = true ↔ bytes.take 2 = gzipHeader := by
  match bytes with
  | [] => simp [isGzipped, gzipHeader]
  | [b] => simp [isGzipped, gzipHeader]
  | b1 :: b2 :: rest => simp [isGzipped, gzipHeader]

/-- C3: for a layer file starting with the gzip magic `1f 8b` (and a
readable gzip stream), `getLayerDescriptor` — the descriptor
computation of `AddLayer` — returns a descriptor whose size is the
file's byte length, whose digest is the SHA-256 of the compressed
bytes, whose media type is the gzipped-layer type, and a diffID that is
the SHA-256 of the decompressed bytes; for a file not starting with
`1f 8b` (including the empty file), `AddLayer` fails with the
"invalid layer <path>: not gzipped" error making no `OCIDirectory`
call at all. -/
theorem addLayer_gzip_descriptor (hm : HashModel) (path : String) (bytes : List Nat)
    (σ : Type) (ops : OCIDirectory σ) (s : σ) :
    (∀ raw, bytes.take 2 = gzipHeader → hm.gunzip bytes = some raw →
      getLayerDescriptor hm path (some bytes) =
        Except.ok ({ mediaType := mediaTypeImageLayerGzip,
                     digest := "sha256:" ++ hm.sha256hex bytes,
                     size := (bytes.length : Int) },
                   "sha256:" ++ hm.sha256hex raw)) ∧
    (bytes.take 2 ≠ gzipHeader →
      AddLayer ops hm path (some bytes) s = (Except.error (LMErr.notGzipped path), []) ∧
      (LMErr.notGzipped path).message = "invalid layer " ++ path ++ ": not gzipped") := by
  constructor
  · intro raw hA hg
    have hiz : isGzipped bytes = true := (isGzipped_iff bytes).mpr hA
    simp [getLayerDescriptor, hiz, hg]
  · intro hB
    have hiz : isGzipped bytes = false := by
      cases hcase : isGzipped bytes
      · rfl
      · exact absurd ((isGzipped_iff bytes).mp hcase) hB
    exact ⟨by simp [AddLayer, getLayerDescriptor, hiz], rfl⟩

/-- C3 witness: the descriptor of the concrete gzipped file
`[0x1f, 0x8b]` and the rejection of the non-gzipped file `[0x50]` and
of the empty file. -/
theorem addLayer_gzip_descriptor_witness :
    getLayerDescriptor hmEx "layer.tgz" (some [0x1f, 0x8b]) =
      Except.ok ({ mediaType := mediaTypeImageLayerGzip,
                   digest := "sha256:" ++ hmEx.sha256hex [0x1f, 0x8b],
                   size := (([0x1f, 0x8b] : List Nat).length : Int) },
                 "sha256:" ++ hmEx.sha256hex [7]) ∧
    (AddLayer (specOps cdfEx) hmEx "layer.tgz" (some [0x50]) dirStateEx =
        (Except.error (LMErr.notGzipped "layer.tgz"), []) ∧
      (LMErr.notGzipped "layer.tgz").message =
        "invalid layer " ++ "layer.tgz" ++ ": not gzipped") ∧
    (AddLayer (specOps cdfEx) hmEx "layer.tgz" (some []) dirStateEx =
        (Except.error (LMErr.notGzipped "layer.tgz"), []) ∧
      (LMErr.notGzipped "layer.tgz").message =
        "invalid layer " ++ "layer.tgz" ++ ": not gzipped") :=
  ⟨(addLayer_gzip_descriptor hmEx "layer.tgz" [0x1f, 0x8b] DirState (specOps cdfEx)
      dirStateEx).1 [7] (by decide) (by decide),
   (addLayer_gzip_descriptor hmEx "layer.tgz" [0x50] DirState (specOps cdfEx)
      dirStateEx).2 (by decide),
   (addLayer_gzip_descriptor hmEx "layer.tgz" [] DirState (specOps cdfEx)
      dirStateEx).2 (by decide)⟩

/-- C7: on a layout whose manifest has no `hydrator.layerAdded`
annotation, `RemoveHydratorLayer` returns success with the state
untouched, after a single `ReadMetadata` call — `ClearMetadata`,
`RemoveTopBlob` and `WriteMetadata` are never invoked, so no file of
the layout changes. -/
theorem removeLayer_noop_without_marker (σ : Type) (ops : OCIDirectory σ) (s : σ)
    (m : Manifest) (c : Image)
    (hread : ops.ReadMetadata s = Except.ok (m, c))
    (hann : m.annots.lookup "hydrator.layerAdded" = none) :
    RemoveHydratorLayer ops s = (Except.ok s, [DirCall.readMetadata]) := by
  simp [RemoveHydratorLayer, hread, hann]

/-- C7 witness: the no-op on a concrete annotation-free layout. -/
theorem removeLayer_noop_without_marker_witness :
    RemoveHydratorLayer (specOps cdfEx) dirStateEx =
      (Except.ok dirStateEx, [DirCall.readMetadata]) :=
  removeLayer_noop_without_marker DirState (specOps cdfEx) dirStateEx
    dirStateEx.manifest dirStateEx.config (by decide) (by decide)

/-- C9: with the preceding steps succeeding and `noTarball = false`,
`ImageFetcher.Run` fails with "Invalid image name" exactly when the
image name does not split on "/" into exactly two parts; for a name of
the form namespace/name it writes the archive to
`outDir/{name}-{tag}.tgz` (the part after the slash); with
`noTarball = true` no image-name requirement is imposed. -/
theorem fetch_image_name_check (env : FetchEnv) (outDir imageName imageTag : String)
    (tdir : String) (layers : List Descriptor) (diffIds : List String)
    (hmk : env.mkdirOutOk = true)
    (htmp : env.tempDir = Except.ok tdir)
    (hblob : env.mkdirBlobOk = true)
    (hdl : env.downloadResult = Except.ok (layers, diffIds))
    (hwm : env.writeMetadata layers diffIds false = Except.ok ())
    (htgz : ∀ a b, env.writeTgz a b = Except.ok ()) :
    (ImageFetcherRun env outDir imageName imageTag false =
        Except.error FetchErr.invalidImageName ↔
      (goSplit imageName '/').length ≠ 2) ∧
    (∀ ns nm, goSplit imageName '/' = [ns, nm] →
      ImageFetcherRun env outDir imageName imageTag false =
        Except.ok (some (joinPath outDir (nm ++ "-" ++ imageTag ++ ".tgz")))) ∧
    ImageFetcherRun env outDir imageName imageTag true ≠
      Except.error FetchErr.invalidImageName := by
  refine ⟨?_, fun ns nm hns => ?_, ?_⟩
  · by_cases hsplit : (goSplit imageName '/').length = 2
    · simp [ImageFetcherRun, hmk, htmp, hblob, hdl, hwm, htgz, hsplit]
    · simp [ImageFetcherRun, hmk, htmp, hblob, hdl, hwm, hsplit]
  · simp [ImageFetcherRun, hmk, htmp, hblob, hdl, hwm, htgz, hns, joinPath]
  · simp [ImageFetcherRun, hmk, hblob, hdl, hwm]

/-- C9 witness: on a concrete all-succeeding environment and the image
name "cloudfoundry/windows2016fs", the name check, the produced
tarball path, and the absence of the requirement under noTarball. -/
theorem fetch_image_name_check_witness :
    (ImageFetcherRun fetchEnvEx "out" "cloudfoundry/windows2016fs" "1803" false =
        Except.error FetchErr.invalidImageName ↔
      (goSplit "cloudfoundry/windows2016fs" '/').length ≠ 2) ∧
    ImageFetcherRun fetchEnvEx "out" "cloudfoundry/windows2016fs" "1803" false =
      Except.ok (some (joinPath "out" ("windows2016fs" ++ "-" ++ "1803" ++ ".tgz"))) ∧
    ImageFetcherRun fetchEnvEx "out" "cloudfoundry/windows2016fs" "1803" true ≠
      Except.error FetchErr.invalidImageName :=
  ⟨(fetch_image_name_check fetchEnvEx "out" "cloudfoundry/windows2016fs" "1803"
      "/tmp/hydrate-1" [descEx] ["sha256:dd34"] rfl rfl rfl rfl rfl
      (fun _ _ => rfl)).1,
   (fetch_image_name_check fetchEnvEx "out" "cloudfoundry/windows2016fs" "1803"
      "/tmp/hydrate-1" [descEx] ["sha256:dd34"] rfl rfl rfl rfl rfl
      (fun _ _ => rfl)).2.1 "cloudfoundry" "windows2016fs" (by decide),
   (fetch_image_name_check fetchEnvEx "out" "cloudfoundry/windows2016fs" "1803"
      "/tmp/hydrate-1" [descEx] ["sha256:dd34"] rfl rfl rfl rfl rfl
      (fun _ _ => rfl)).2.2⟩

/-! ## Helper lemmas about splitting and the spec-modelled store -/

/-- `splitOnChar` never returns the empty list. -/
lemma splitOnChar_ne_nil (c : Char) (l : List Char) : splitOnChar c l ≠ [] := by
  induction l with
  | nil => simp [splitOnChar]
  | cons ch rest ih =>
    simp only [splitOnChar]
    by_cases hc : ch = c
    · simp [hc]
    · rw [if_neg hc]
      cases hr : splitOnChar c rest <;> simp

/-- A one-chunk split means the separator does not occur: the chunk is
the whole input. -/
lemma splitOnChar_singleton (c : Char) (l : List Char) :
    ∀ x, splitOnChar c l = [x] → x = l := by
  induction l with
  | nil =>
    intro x h
    simp [splitOnChar] at h
    exact h
  | cons ch rest ih =>
    intro x h
    simp only [splitOnChar] at h
    by_cases hc : ch = c
    · rw [if_pos hc] at h
      have hnil : splitOnChar c rest = [] := by
        cases h' : splitOnChar c rest with
        | nil => rfl
        | cons a b =>
          rw [h'] at h
          simp at h
      exact absurd hnil (splitOnChar_ne_nil c rest)
    · rw [if_neg hc] at h
      cases hr : splitOnChar c rest with
      | nil => exact absurd hr (splitOnChar_ne_nil c rest)
      | cons hd tl =>
        rw [hr] at h
        simp only [List.cons.injEq] at h
        obtain ⟨hx, htl⟩ := h
        subst htl
        have hhd := ih hd hr
        rw [← hx, hhd]

/-- A two-chunk split on ':' determines the part after the first
colon. -/
lemma afterFirstColon_split_pair (l : List Char) :
    ∀ a b, splitOnChar ':' l = [a, b] → afterFirstColon l = some b := by
  induction l with
  | nil =>
    intro a b h
    simp [splitOnChar] at h
  | cons ch rest ih =>
    intro a b h
    simp only [splitOnChar] at h
    by_cases hc : ch = ':'
    · rw [if_pos hc] at h
      simp only [List.cons.injEq] at h
      obtain ⟨-, h2⟩ := h
      have hb := splitOnChar_singleton ':' rest b h2
      simp [afterFirstColon, hc, hb]
    · rw [if_neg hc] at h
      cases hr : splitOnChar ':' rest with
      | nil => exact absurd hr (splitOnChar_ne_nil ':' rest)
      | cons hd tl =>
        rw [hr] at h
        simp only [List.cons.injEq] at h
        obtain ⟨-, htl⟩ := h
        have := ih hd b (by rw [hr, htl])
        simp [afterFirstColon, hc, this]

/-- A lexically valid digest splits on ':' into exactly two chunks. -/
lemma validDigest_split (d : String) (h : validDigestFormat d = true) :
    ∃ a hex, splitOnChar ':' d.toList = [a, hex] := by
  unfold validDigestFormat at h
  rcases hs : splitOnChar ':' d.toList with _ | ⟨a, _ | ⟨hex, _ | ⟨c3, r3⟩⟩⟩ <;>
    rw [hs] at h
  · simp at h
  · simp at h
  · exact ⟨a, hex, rfl⟩
  · simp at h

/-- For a lexically valid digest the Go `strings.Split(d, ":")[1]`
access of `RemoveHydratorLayer` is in bounds and agrees with
go-digest's `Encoded()`. -/
lemma digest_parts (d : String) (h : validDigestFormat d = true) :
    ∃ hex, (goSplit d ':').get? 1 = some hex ∧ digestEncoded d = hex := by
  obtain ⟨a, hx, hs⟩ := validDigest_split d h
  have hs' : splitOnChar ':' d.data = [a, hx] := hs
  have hafc : afterFirstColon d.data = some hx :=
    afterFirstColon_split_pair d.toList a hx hs
  refine ⟨String.mk hx, ?_, ?_⟩
  · simp [goSplit, String.toList, hs']
  · simp [digestEncoded, String.toList, hafc]

/-- Unpacking of the spec-modelled `ReadMetadata` validation. -/
lemma wellFormed_spec (s : DirState) (h : wellFormed s = true) :
    s.blobsDirExists = true ∧ s.hasMetadata = true ∧ s.config.os = "windows" ∧
    s.config.architecture = "amd64" ∧ s.config.rootfs.fsType = "layers" ∧
    (∀ l ∈ s.manifest.layers, recognizedLayerType l.mediaType = true ∧
      validDigestFormat l.digest = true ∧
      s.blobs.contains (digestEncoded l.digest) = true) ∧
    s.manifest.layers.length = s.config.rootfs.diffIDs.length := by
  simp only [wellFormed, Bool.and_eq_true, decide_eq_true_eq, List.all_eq_true] at h
  obtain ⟨⟨⟨⟨⟨⟨h1, h2⟩, h3⟩, h4⟩, h5⟩, h6⟩, h7⟩ := h
  refine ⟨h1, h2, h3, h4, h5, fun l hl => ?_, h7⟩
  obtain ⟨⟨ha, hb⟩, hc⟩ := h6 l hl
  exact ⟨ha, hb, hc⟩

/-- Packing of the spec-modelled validation for a state just written by
`WriteMetadata`. -/
lemma wellFormed_write_state (bde : Bool) (blobs : List String) (cdesc : Descriptor)
    (layers : List Descriptor) (diffIds : List String) (anns : List (String × String))
    (hbde : bde = true)
    (hall : ∀ l ∈ layers, recognizedLayerType l.mediaType = true ∧
      validDigestFormat l.digest = true ∧
      blobs.contains (digestEncoded l.digest) = true)
    (hlen : layers.length = diffIds.length) :
    wellFormed
      { blobsDirExists := bde, hasMetadata := true,
        manifest := { config := cdesc, layers := layers, annots := anns },
        config := { os := "windows", architecture := "amd64",
                    rootfs := { fsType := "layers", diffIDs := diffIds } },
        blobs := blobs } = true := by
  have hALL : (layers.all fun l =>
      recognizedLayerType l.mediaType && validDigestFormat l.digest &&
      blobs.contains (digestEncoded l.digest)) = true := by
    rw [List.all_eq_true]
    intro l hl
    obtain ⟨h1, h2, h3⟩ := hall l hl
    simp [h1, h2]
    simpa using h3
  simp [wellFormed, hbde, hlen, hALL, List.all_eq_true] at hALL ⊢
  intro l hl
  exact hALL l hl

/-- On a well-formed layout whose manifest carries the hydrator
annotation and has at least one layer, `RemoveHydratorLayer` over the
spec-modelled store succeeds, dropping exactly the last layer and last
diff-id and writing the metadata back without the annotation. -/
lemma removeHydrator_on_state (cdf : List String → Descriptor) (s1 : DirState)
    (v : String)
    (hwf : wellFormed s1 = true)
    (hannot : s1.manifest.annots.lookup "hydrator.layerAdded" = some v)
    (hne : s1.manifest.layers ≠ []) :
    ∃ s3 tr3, RemoveHydratorLayer (specOps cdf) s1 = (Except.ok s3, tr3) ∧
      s3.manifest.layers = s1.manifest.layers.dropLast ∧
      s3.config.rootfs.diffIDs = s1.config.rootfs.diffIDs.dropLast ∧
      s3.manifest.annots = [] ∧
      s3.hasMetadata = true ∧ s3.blobsDirExists = s1.blobsDirExists := by
  obtain ⟨hbd, hmd, hos, harch, hfst, hall, hlen⟩ := wellFormed_spec s1 hwf
  obtain ⟨last, hlast⟩ : ∃ a, s1.manifest.layers.getLast? = some a := by
    cases hl : s1.manifest.layers.getLast? with
    | none => exact absurd (List.getLast?_eq_none_iff.mp hl) hne
    | some a => exact ⟨a, rfl⟩
  have hlastmem : last ∈ s1.manifest.layers := by
    obtain ⟨hne', heq⟩ := List.mem_getLast?_eq_getLast
      (show last ∈ s1.manifest.layers.getLast? by simp [Option.mem_def, hlast])
    rw [heq]
    exact List.getLast_mem hne'
  obtain ⟨hrec, hvalid, hcontain⟩ := hall last hlastmem
  obtain ⟨hex, hget1, henc⟩ := digest_parts last.digest hvalid
  have hcontain2 : s1.blobs.contains hex = true := by
    rw [← henc]
    exact hcontain
  have hmem2 : hex ∈ s1.blobs := by simpa using hcontain2
  have hdne : s1.config.rootfs.diffIDs.isEmpty = false := by
    cases hd : s1.config.rootfs.diffIDs with
    | nil =>
      rw [hd] at hlen
      simp at hlen
      exact absurd hlen hne
    | cons a t => simp
  have hread : (specOps cdf).ReadMetadata s1 = Except.ok (s1.manifest, s1.config) := by
    simp [specOps, hwf]
  have hclear : (specOps cdf).ClearMetadata s1 =
      Except.ok { s1 with hasMetadata := false } := by
    simp [specOps, hmd]
  have hrtb : (specOps cdf).RemoveTopBlob hex { s1 with hasMetadata := false } =
      Except.ok { s1 with hasMetadata := false, blobs := s1.blobs.erase hex } := by
    simp [specOps, hbd, hmem2]
  have hwlen : ¬ (s1.manifest.layers.dropLast.length ≠
      s1.config.rootfs.diffIDs.dropLast.length) := by
    simp [List.length_dropLast, hlen]
  have hwrite : (specOps cdf).WriteMetadata s1.manifest.layers.dropLast
      s1.config.rootfs.diffIDs.dropLast false
      { s1 with hasMetadata := false, blobs := s1.blobs.erase hex } =
      Except.ok
        { blobsDirExists := s1.blobsDirExists, hasMetadata := true,
          manifest := { config := cdf s1.config.rootfs.diffIDs.dropLast,
                        layers := s1.manifest.layers.dropLast, annots := [] },
          config := { os := "windows", architecture := "amd64",
                      rootfs := { fsType := "layers",
                                  diffIDs := s1.config.rootfs.diffIDs.dropLast } },
          blobs := s1.blobs.erase hex } := by
    simp only [specOps]
    rw [if_neg hwlen]
    simp
  refine ⟨{ blobsDirExists := s1.blobsDirExists, hasMetadata := true,
            manifest := { config := cdf s1.config.rootfs.diffIDs.dropLast,
                          layers := s1.manifest.layers.dropLast, annots := [] },
            config := { os := "windows", architecture := "amd64",
                        rootfs := { fsType := "layers",
                                    diffIDs := s1.config.rootfs.diffIDs.dropLast } },
            blobs := s1.blobs.erase hex },
          [DirCall.readMetadata, DirCall.clearMetadata, DirCall.removeTopBlob hex,
           DirCall.writeMetadata s1.manifest.layers.dropLast
             s1.config.rootfs.diffIDs.dropLast false], ?_, rfl, rfl, rfl, rfl, rfl⟩
  simp only [RemoveHydratorLayer, hread, hannot, hclear, hlast, hget1, hrtb, hdne,
    hwrite]
  simp

/-- Inversion of a successful `AddLayer` over the spec-modelled store:
the file was readable and gzipped, its digest passed the lexical check,
the layout with the new blob added was well-formed, and the final state
is the written metadata with the new layer and diff-id appended and the
annotation set. -/
lemma addLayer_ok_spec (cdf : List String → Descriptor) (hm : HashModel) (path : String)
    (file : Option (List Nat)) (s0 s1 : DirState) (tr : List DirCall)
    (h : AddLayer (specOps cdf) hm path file s0 = (Except.ok s1, tr)) :
    ∃ bytes raw,
      file = some bytes ∧
      hm.gunzip bytes = some raw ∧
      validDigestFormat ("sha256:" ++ hm.sha256hex bytes) = true ∧
      s0.blobsDirExists = true ∧
      wellFormed
        { s0 with
          blobs := s0.blobs.insert (digestEncoded ("sha256:" ++ hm.sha256hex bytes)) }
        = true ∧
      s1 =
        { blobsDirExists := s0.blobsDirExists,
          hasMetadata := true,
          manifest :=
            { config := cdf (s0.config.rootfs.diffIDs ++ ["sha256:" ++ hm.sha256hex raw]),
              layers := s0.manifest.layers ++
                [{ mediaType := mediaTypeImageLayerGzip,
                   digest := "sha256:" ++ hm.sha256hex bytes,
                   size := (bytes.length : Int) }],
              annots := [("hydrator.layerAdded", "true")] },
          config :=
            { os := "windows",
              architecture := "amd64",
              rootfs :=
                { fsType := "layers",
                  diffIDs := s0.config.rootfs.diffIDs ++
                    ["sha256:" ++ hm.sha256hex raw] } },
          blobs := s0.blobs.insert (digestEncoded ("sha256:" ++ hm.sha256hex bytes)) } := by
  cases hfile : file with
  | none =>
    rw [hfile] at h
    simp [AddLayer, getLayerDescriptor] at h
  | some bytes =>
    rw [hfile] at h
    cases hgz : isGzipped bytes with
    | false => simp [AddLayer, getLayerDescriptor, hgz] at h
    | true =>
      cases hgun : hm.gunzip bytes with
      | none => simp [AddLayer, getLayerDescriptor, hgz, hgun] at h
      | some raw =>
        simp only [AddLayer, getLayerDescriptor, hgz, hgun, Bool.not_true,
          Bool.false_eq_true, if_false] at h
        by_cases hbd : s0.blobsDirExists = true
        case neg =>
          rw [Bool.not_eq_true] at hbd
          simp [specOps, hbd] at h
        case pos =>
        by_cases hvd : validDigestFormat ("sha256:" ++ hm.sha256hex bytes) = true
        case neg =>
          rw [Bool.not_eq_true] at hvd
          simp [specOps, hbd, hvd] at h
        case pos =>
        have haddb : (specOps cdf).AddBlob path
            { mediaType := mediaTypeImageLayerGzip,
              digest := "sha256:" ++ hm.sha256hex bytes,
              size := (bytes.length : Int) } s0 =
            Except.ok
              { s0 with
                blobs :=
                  s0.blobs.insert (digestEncoded ("sha256:" ++ hm.sha256hex bytes)) } := by
          simp [specOps, hbd, hvd]
        simp only [haddb] at h
        by_cases hwf0 : wellFormed
          { s0 with
            blobs :=
              s0.blobs.insert (digestEncoded ("sha256:" ++ hm.sha256hex bytes)) } = true
        case neg =>
          rw [Bool.not_eq_true] at hwf0
          simp [specOps, hwf0] at h
        case pos =>
        have hmd0 : s0.hasMetadata = true := (wellFormed_spec _ hwf0).2.1
        have hread0 : (specOps cdf).ReadMetadata
            { s0 with
              blobs :=
                s0.blobs.insert (digestEncoded ("sha256:" ++ hm.sha256hex bytes)) } =
            Except.ok (s0.manifest, s0.config) := by
          simp [specOps, hwf0]
        simp only [hread0] at h
        have hclear0 : (specOps cdf).ClearMetadata
            { s0 with
              blobs :=
                s0.blobs.insert (digestEncoded ("sha256:" ++ hm.sha256hex bytes)) } =
            Except.ok
              { s0 with
                hasMetadata := false,
                blobs :=
                  s0.blobs.insert (digestEncoded ("sha256:" ++ hm.sha256hex bytes)) } := by
          simp [specOps, hmd0]
        simp only [hclear0] at h
        have hwl : ¬ ((s0.manifest.layers ++
            [({ mediaType := mediaTypeImageLayerGzip,
                digest := "sha256:" ++ hm.sha256hex bytes,
                size := (bytes.length : Int) } : Descriptor)]).length ≠
            (s0.config.rootfs.diffIDs ++ ["sha256:" ++ hm.sha256hex raw]).length) := by
          have hl0 : s0.manifest.layers.length = s0.config.rootfs.diffIDs.length :=
            (wellFormed_spec _ hwf0).2.2.2.2.2.2
          simp
          omega
        have hwrite0 : (specOps cdf).WriteMetadata
            (s0.manifest.layers ++
              [{ mediaType := mediaTypeImageLayerGzip,
                 digest := "sha256:" ++ hm.sha256hex bytes,
                 size := (bytes.length : Int) }])
            (s0.config.rootfs.diffIDs ++ ["sha256:" ++ hm.sha256hex raw]) true
            { s0 with
              hasMetadata := false,
              blobs :=
                s0.blobs.insert (digestEncoded ("sha256:" ++ hm.sha256hex bytes)) } =
            Except.ok
              { blobsDirExists := s0.blobsDirExists,
                hasMetadata := true,
                manifest :=
                  { config := cdf (s0.config.rootfs.diffIDs ++
                      ["sha256:" ++ hm.sha256hex raw]),
                    layers := s0.manifest.layers ++
                      [{ mediaType := mediaTypeImageLayerGzip,
                         digest := "sha256:" ++ hm.sha256hex bytes,
                         size := (bytes.length : Int) }],
                    annots := [("hydrator.layerAdded", "true")] },
                config :=
                  { os := "windows",
                    architecture := "amd64",
                    rootfs :=
                      { fsType := "layers",
                        diffIDs := s0.config.rootfs.diffIDs ++
                          ["sha256:" ++ hm.sha256hex raw] } },
                blobs :=
                  s0.blobs.insert
                    (digestEncoded ("sha256:" ++ hm.sha256hex bytes)) } := by
          simp only [specOps]
          rw [if_neg hwl]
          simp
        simp only [hwrite0] at h
        simp only [Prod.mk.injEq, Except.ok.injEq] at h
        exact ⟨bytes, raw, rfl, hgun, hvd, hbd, hwf0, h.1.symm⟩

/-- The state written by a successful `AddLayer` is well-formed, shows
the annotation, and has a nonempty layer list. -/
lemma addLayer_result_facts (cdf : List String → Descriptor) (hm : HashModel)
    (path : String) (file : Option (List Nat)) (s0 s1 : DirState) (tr : List DirCall)
    (hAdd : AddLayer (specOps cdf) hm path file s0 = (Except.ok s1, tr)) :
    wellFormed s1 = true ∧
    s1.manifest.annots.lookup "hydrator.layerAdded" = some "true" ∧
    s1.manifest.layers ≠ [] ∧
    s1.manifest.layers.length = s0.manifest.layers.length + 1 ∧
    s1.manifest.layers.dropLast = s0.manifest.layers ∧
    s1.config.rootfs.diffIDs.dropLast = s0.config.rootfs.diffIDs := by
  obtain ⟨bytes, raw, hfile, hgun, hvd, hbd, hwf0, hs1⟩ :=
    addLayer_ok_spec cdf hm path file s0 s1 tr hAdd
  have hall0 := (wellFormed_spec _ hwf0).2.2.2.2.2.1
  have hlen0 : s0.manifest.layers.length = s0.config.rootfs.diffIDs.length :=
    (wellFormed_spec _ hwf0).2.2.2.2.2.2
  have hwf1 : wellFormed s1 = true := by
    rw [hs1]
    apply wellFormed_write_state
    · exact hbd
    · intro l hl
      rcases List.mem_append.mp hl with hmem | hmem
      · exact hall0 l hmem
      · have hld : l =
            { mediaType := mediaTypeImageLayerGzip,
              digest := "sha256:" ++ hm.sha256hex bytes,
              size := (bytes.length : Int) } := by
          simpa using hmem
        subst hld
        refine ⟨by simp [recognizedLayerType], hvd, ?_⟩
        simp [List.mem_insert_self]
    · simp [hlen0]
  refine ⟨hwf1, ?_, ?_, ?_, ?_, ?_⟩
  · rw [hs1]
    simp [List.lookup]
  · rw [hs1]
    simp
  · rw [hs1]
    simp
  · rw [hs1]
    simp
  · rw [hs1]
    simp

/-- C8: after a successful `AddLayer`, `ReadMetadata` observes the
`hydrator.layerAdded = true` annotation on the manifest, and a
subsequent `RemoveHydratorLayer` succeeds, restoring the manifest's
layer list and the config's diff-id list to their pre-add values and
clearing the annotation. -/
theorem addLayer_then_removeLayer_roundtrip (cdf : List String → Descriptor)
    (hm : HashModel) (path : String) (file : Option (List Nat))
    (s0 s1 : DirState) (tr : List DirCall)
    (hAdd : AddLayer (specOps cdf) hm path file s0 = (Except.ok s1, tr)) :
    (∃ m1 c1, (specOps cdf).ReadMetadata s1 = Except.ok (m1, c1) ∧
      m1.annots.lookup "hydrator.layerAdded" = some "true") ∧
    (∃ s2 tr2, RemoveHydratorLayer (specOps cdf) s1 = (Except.ok s2, tr2) ∧
      s2.manifest.layers = s0.manifest.layers ∧
      s2.config.rootfs.diffIDs = s0.config.rootfs.diffIDs ∧
      s2.manifest.annots.lookup "hydrator.layerAdded" = none) := by
  obtain ⟨hwf1, hannot1, hne1, _, hdropL, hdropD⟩ :=
    addLayer_result_facts cdf hm path file s0 s1 tr hAdd
  obtain ⟨s3, tr3, hrem, hl3, hd3, ha3, _, _⟩ :=
    removeHydrator_on_state cdf s1 "true" hwf1 hannot1 hne1
  refine ⟨⟨s1.manifest, s1.config, by simp [specOps, hwf1], hannot1⟩,
    s3, tr3, hrem, ?_, ?_, ?_⟩
  · rw [hl3, hdropL]
  · rw [hd3, hdropD]
  · rw [ha3]
    simp

/-- C8 witness: the roundtrip on the concrete empty layout and the
gzipped file `[0x1f, 0x8b]`. -/
theorem addLayer_then_removeLayer_roundtrip_witness :
    (∃ m1 c1, (specOps cdfEx).ReadMetadata exS1 = Except.ok (m1, c1) ∧
      m1.annots.lookup "hydrator.layerAdded" = some "true") ∧
    (∃ s2 tr2, RemoveHydratorLayer (specOps cdfEx) exS1 = (Except.ok s2, tr2) ∧
      s2.manifest.layers = dirStateEx.manifest.layers ∧
      s2.config.rootfs.diffIDs = dirStateEx.config.rootfs.diffIDs ∧
      s2.manifest.annots.lookup "hydrator.layerAdded" = none) :=
  addLayer_then_removeLayer_roundtrip cdfEx hmEx "layer.tgz" (some [0x1f, 0x8b])
    dirStateEx exS1
    [DirCall.addBlob "layer.tgz" dEx, DirCall.readMetadata, DirCall.clearMetadata,
     DirCall.writeMetadata [dEx] ["sha256:bb22"] true]
    (by decide)

/-- C2 counterexample: a concrete run of add-layer, add-layer,
remove-layer over the spec-modelled store in which the remove succeeds
and drops only the topmost layer, but the `hydrator.layerAdded`
annotation is NOT present in the manifest written afterwards — the
remove passes `layerAdded = false` to `WriteMetadata`, clearing the
marker, contrary to the claim that it remains set. -/
theorem marker_retained_counterexample :
    (AddLayer (specOps cdfEx) hmEx "layer.tgz" (some [0x1f, 0x8b]) dirStateEx).1 =
      Except.ok exS1 ∧
    (AddLayer (specOps cdfEx) hmEx "layer.tgz" (some [0x1f, 0x8b]) exS1).1 =
      Except.ok exS2 ∧
    (RemoveHydratorLayer (specOps cdfEx) exS2).1 = Except.ok exS3 ∧
    exS3.manifest.layers = exS2.manifest.layers.dropLast ∧
    exS3.config.rootfs.diffIDs = exS2.config.rootfs.diffIDs.dropLast ∧
    exS3.manifest.annots.lookup "hydrator.layerAdded" = none := by
  decide

/-- C2 as amended: if add-layer succeeds twice and remove-layer is then
invoked, the remove succeeds, drops only the topmost layer and its
diffID (one layer remains beyond the original state), and the
`hydrator.layerAdded` annotation is cleared (not retained) in the
manifest written afterwards. -/
theorem double_add_remove_drops_top_clears_marker (cdf : List String → Descriptor)
    (hm : HashModel) (p1 p2 : String) (f1 f2 : Option (List Nat))
    (s0 s1 s2 : DirState) (tr1 tr2 : List DirCall)
    (h1 : AddLayer (specOps cdf) hm p1 f1 s0 = (Except.ok s1, tr1))
    (h2 : AddLayer (specOps cdf) hm p2 f2 s1 = (Except.ok s2, tr2)) :
    ∃ s3 tr3, RemoveHydratorLayer (specOps cdf) s2 = (Except.ok s3, tr3) ∧
      s3.manifest.layers = s2.manifest.layers.dropLast ∧
      s3.config.rootfs.diffIDs = s2.config.rootfs.diffIDs.dropLast ∧
      s2.manifest.layers.length = s0.manifest.layers.length + 2 ∧
      s3.manifest.layers.length = s0.manifest.layers.length + 1 ∧
      s3.manifest.annots.lookup "hydrator.layerAdded" = none := by
  obtain ⟨_, _, _, hlen1, _, _⟩ := addLayer_result_facts cdf hm p1 f1 s0 s1 tr1 h1
  obtain ⟨hwf2, hannot2, hne2, hlen2, hdropL2, _⟩ :=
    addLayer_result_facts cdf hm p2 f2 s1 s2 tr2 h2
  obtain ⟨s3, tr3, hrem, hl3, hd3, ha3, _, _⟩ :=
    removeHydrator_on_state cdf s2 "true" hwf2 hannot2 hne2
  refine ⟨s3, tr3, hrem, hl3, hd3, by omega, ?_, by rw [ha3]; simp⟩
  rw [hl3, hdropL2]
  omega

/-- C2 amended witness: the concrete add-add-remove chain. -/
theorem double_add_remove_witness :
    ∃ s3 tr3, RemoveHydratorLayer (specOps cdfEx) exS2 = (Except.ok s3, tr3) ∧
      s3.manifest.layers = exS2.manifest.layers.dropLast ∧
      s3.config.rootfs.diffIDs = exS2.config.rootfs.diffIDs.dropLast ∧
      exS2.manifest.layers.length = dirStateEx.manifest.layers.length + 2 ∧
      s3.manifest.layers.length = dirStateEx.manifest.layers.length + 1 ∧
      s3.manifest.annots.lookup "hydrator.layerAdded" = none :=
  double_add_remove_drops_top_clears_marker cdfEx hmEx "layer.tgz" "layer.tgz"
    (some [0x1f, 0x8b]) (some [0x1f, 0x8b]) dirStateEx exS1 exS2
    [DirCall.addBlob "layer.tgz" dEx, DirCall.readMetadata, DirCall.clearMetadata,
     DirCall.writeMetadata [dEx] ["sha256:bb22"] true]
    [DirCall.addBlob "layer.tgz" dEx, DirCall.readMetadata, DirCall.clearMetadata,
     DirCall.writeMetadata [dEx, dEx] ["sha256:bb22", "sha256:bb22"] true]
    (by decide) (by decide)

/-- C10: if `ReadMetadata` yields a manifest that carries the
`hydrator.layerAdded` annotation but an empty layer list (and
`ClearMetadata` succeeds), `RemoveHydratorLayer` hits the
out-of-bounds access `manifest.Layers[len-1]` — a Go panic; whereas
whenever the spec-modelled `ReadMetadata` returns at least one layer,
no index access in `RemoveHydratorLayer` is out of bounds. -/
theorem removeLayer_index_bounds :
    (∀ (σ : Type) (ops : OCIDirectory σ) (s s1 : σ) (m : Manifest) (c : Image)
      (v : String),
      ops.ReadMetadata s = Except.ok (m, c) →
      m.annots.lookup "hydrator.layerAdded" = some v →
      m.layers = [] →
      ops.ClearMetadata s = Except.ok s1 →
      (RemoveHydratorLayer ops s).1 =
        Except.error (LMErr.outOfRange "index out of range: manifest.Layers")) ∧
    (∀ (cdf : List String → Descriptor) (s : DirState) (m : Manifest) (c : Image),
      (specOps cdf).ReadMetadata s = Except.ok (m, c) →
      m.layers ≠ [] →
      ∀ msg, (RemoveHydratorLayer (specOps cdf) s).1 ≠
        Except.error (LMErr.outOfRange msg)) := by
  constructor
  · intro σ ops s s1 m c v hread hann hlay hclear
    simp [RemoveHydratorLayer, hread, hann, hlay, hclear]
  · intro cdf s m c hread hne msg
    have hwf : wellFormed s = true := by
      by_cases hwf : wellFormed s = true
      · exact hwf
      · simp [specOps, hwf] at hread
    have hm' : m = s.manifest := by
      simp [specOps, hwf] at hread
      exact hread.1.symm
    have hreadOk : (specOps cdf).ReadMetadata s =
        Except.ok (s.manifest, s.config) := by
      simp [specOps, hwf]
    subst hm'
    cases hann : s.manifest.annots.lookup "hydrator.layerAdded" with
    | none =>
      simp [RemoveHydratorLayer, hreadOk, hann]
    | some v =>
      obtain ⟨s3, tr3, hrem, -, -, -, -, -⟩ :=
        removeHydrator_on_state cdf s v hwf hann hne
      rw [hrem]
      simp

/-- C10 witness: the panic on a concrete annotated empty-layer layout
and in-bounds behavior on a concrete one-layer layout. -/
theorem removeLayer_index_bounds_witness :
    (RemoveHydratorLayer (specOps cdfEx) dirStateAnnotEmpty).1 =
      Except.error (LMErr.outOfRange "index out of range: manifest.Layers") ∧
    (RemoveHydratorLayer (specOps cdfEx) dirStateOneLayer).1 ≠
      Except.error (LMErr.outOfRange "slice bounds out of range: DiffIDs") :=
  ⟨removeLayer_index_bounds.1 DirState (specOps cdfEx) dirStateAnnotEmpty
      { dirStateAnnotEmpty with hasMetadata := false }
      dirStateAnnotEmpty.manifest dirStateAnnotEmpty.config "true"
      (by decide) (by decide) (by decide) (by decide),
   removeLayer_index_bounds.2 cdfEx dirStateOneLayer
      dirStateOneLayer.manifest dirStateOneLayer.config
      (by decide) (by decide) "slice bounds out of range: DiffIDs"⟩

end Hydrator
